import Mathlib

/-!
Shallow embedding of `src/kafka-client/main.go`, a Kafka topic
export/import tool, together with proofs of its specification claims.

The Go program reads cluster topic descriptors, filters internal topics,
normalizes configs, sorts by name and writes a JSON snapshot; the import
path parses the snapshot and replays topic creation against the cluster.
Cluster interaction (sarama) is modelled by explicit state passing: the
cluster is the list of existing topic names, and a `fail` oracle stands
for cluster-side errors other than "already exists".
-/

namespace KafkaClient

/-- Go struct `Topic` of main.go: the per-topic JSON shape. The Go
`map[string]string` config map is modelled as an association list. -/
structure Topic where
  name : String
  partitions : Int
  replicationFactor : Int
  configs : List (String × String)
deriving DecidableEq

/-- Go struct `ExportFile` of main.go: the whole snapshot document. -/
structure ExportFile where
  kafkaVersion : String
  exportTime : String
  topics : List Topic
deriving DecidableEq

/-- sarama `TopicDetail` as consumed/produced by the tool: partition
count, replication factor and `ConfigEntries : map[string]*string`,
modelled as an association list with optional values. -/
structure TopicDetail where
  numPartitions : Int
  replicationFactor : Int
  configEntries : List (String × Option String)
deriving DecidableEq

/-- The internal-topic test of exportTopics, line 52:
`len(name) >= 2 && name[:2] == "__"`. -/
def isInternal (name : String) : Bool :=
  decide (2 ≤ name.length) && (name.take 2 == "__")

/-- The `map[string]*string -> map[string]string` conversion of
exportTopics, lines 57-64: a nil value becomes the empty string,
a present value is copied verbatim; no entry is dropped. -/
def goConfigs (entries : List (String × Option String)) : List (String × String) :=
  entries.map fun kv => (kv.1, kv.2.getD "")

/-- Construction of one exported `Topic` from a listTopics entry,
exportTopics lines 66-71. -/
def toTopic (name : String) (d : TopicDetail) : Topic :=
  { name := name
    partitions := d.numPartitions
    replicationFactor := d.replicationFactor
    configs := goConfigs d.configEntries }

/-- The comparator handed to sort.Slice at exportTopics line 74, as the
non-strict order it sorts by: name ascending. Go compares strings
bytewise; UTF-8 byte order coincides with code point order, so the
order is the lexicographic order on the name's character list. -/
def nameLe (a b : Topic) : Prop := a.name.toList ≤ b.name.toList

/-- Strict version of `nameLe`; with unique names the sorted slice is
strictly ascending. -/
def nameLt (a b : Topic) : Prop := a.name.toList < b.name.toList

instance : DecidableRel nameLe := fun a b =>
  inferInstanceAs (Decidable (a.name.toList ≤ b.name.toList))

instance : DecidableRel nameLt := fun a b =>
  inferInstanceAs (Decidable (a.name.toList < b.name.toList))

instance : IsTotal Topic nameLe := ⟨fun a b => le_total a.name.toList b.name.toList⟩

instance : IsTrans Topic nameLe := ⟨fun _ _ _ h₁ h₂ => le_trans h₁ h₂⟩

instance : IsAntisymm Topic nameLt :=
  ⟨fun _ _ h₁ h₂ => absurd h₂ (lt_asymm h₁)⟩

/-- The `result` slice exportTopics builds in its range loop,
lines 50-72, before sorting: the listTopics mapping is an association
list standing for the Go map in iteration order; internal topics are
skipped when `excludeInternal`, the rest converted by `toTopic`. -/
def preSort (topics : List (String × TopicDetail)) (excludeInternal : Bool) : List Topic :=
  (topics.filter fun p => !(excludeInternal && isInternal p.1)).map fun p => toTopic p.1 p.2

/-- The topics slice after the sort.Slice call of exportTopics line 74:
sorted by name ascending. -/
def exportResult (topics : List (String × TopicDetail)) (excludeInternal : Bool) : List Topic :=
  List.insertionSort nameLe (preSort topics excludeInternal)

/-- The `ExportFile` value built at exportTopics lines 78-82:
KafkaVersion is the fixed string "2.4.0", ExportTime the formatted
current time (a parameter here). -/
def buildExportFile (exportTime : String) (topics : List (String × TopicDetail))
    (excludeInternal : Bool) : ExportFile :=
  { kafkaVersion := "2.4.0"
    exportTime := exportTime
    topics := exportResult topics excludeInternal }

/-! ## The JSON document shape (encoding/json on these types) -/

/-- JSON values, restricted to the shapes `encoding/json` produces for
`ExportFile`: strings, integers, arrays and objects. -/
inductive Json where
  | str : String → Json
  | num : Int → Json
  | arr : List Json → Json
  | obj : List (String × Json) → Json

/-- Key order of a marshalled Go map: `encoding/json` sorts object keys
ascending (bytewise, i.e. by code point). Modelled by insertion sort on
the key. -/
def keyLe {β : Type} (a b : String × β) : Prop := a.1.toList ≤ b.1.toList

instance {β : Type} : DecidableRel (@keyLe β) := fun a b =>
  inferInstanceAs (Decidable (a.1.toList ≤ b.1.toList))

instance {β : Type} : IsTotal (String × β) keyLe := ⟨fun a b => le_total a.1.toList b.1.toList⟩

instance {β : Type} : IsTrans (String × β) keyLe := ⟨fun _ _ _ h₁ h₂ => le_trans h₁ h₂⟩

/-- Sort an association list by key ascending, as `encoding/json` does
when marshalling a Go map. -/
def sortByKey {β : Type} (l : List (String × β)) : List (String × β) :=
  List.insertionSort keyLe l

/-- Marshalling of the `Configs` map: keys sorted ascending, each value
a JSON string. -/
def encodeConfigs (cfgs : List (String × String)) : Json :=
  Json.obj (sortByKey (cfgs.map fun kv => (kv.1, Json.str kv.2)))

/-- Marshalling of one `Topic` per its struct tags: fields `name`,
`partitions`, `replication_factor`, and `configs` with `omitempty`
(dropped when the map is empty). -/
def encodeTopic (t : Topic) : Json :=
  Json.obj
    ([("name", Json.str t.name),
      ("partitions", Json.num t.partitions),
      ("replication_factor", Json.num t.replicationFactor)] ++
     (if t.configs.isEmpty then [] else [("configs", encodeConfigs t.configs)]))

/-- Marshalling of the whole `ExportFile` per its struct tags
(`kafka_version`, `export_time`, `topics`). -/
def encodeExportFile (f : ExportFile) : Json :=
  Json.obj
    [("kafka_version", Json.str f.kafkaVersion),
     ("export_time", Json.str f.exportTime),
     ("topics", Json.arr (f.topics.map encodeTopic))]

/-- Field lookup used by `json.Unmarshal` when filling a struct field
from a JSON object. -/
def getField (fields : List (String × Json)) (k : String) : Option Json :=
  fields.lookup k

/-- Unmarshal a string-typed struct field: an absent field keeps the
zero value `""`; a non-string value is a type error. -/
def decodeStr : Option Json → Option String
  | none => some ""
  | some (Json.str s) => some s
  | some _ => none

/-- Unmarshal an integer-typed struct field: an absent field keeps the
zero value `0`; a non-number value is a type error. -/
def decodeInt : Option Json → Option Int
  | none => some 0
  | some (Json.num n) => some n
  | some _ => none

/-- Unmarshal one entry of the `configs` object into the string map. -/
def decodeConfigEntry : String × Json → Option (String × String)
  | (k, Json.str v) => some (k, v)
  | _ => none

/-- Unmarshal the `configs` field: absent yields the nil map (observably
the empty mapping); otherwise every entry must be a string. -/
def decodeConfigs : Option Json → Option (List (String × String))
  | none => some []
  | some (Json.obj fields) => fields.mapM decodeConfigEntry
  | some _ => none

/-- Unmarshal one element of the `topics` array into a `Topic`. -/
def decodeTopic : Json → Option Topic
  | Json.obj fields => do
    let n ← decodeStr (getField fields "name")
    let p ← decodeInt (getField fields "partitions")
    let rf ← decodeInt (getField fields "replication_factor")
    let cfgs ← decodeConfigs (getField fields "configs")
    pure { name := n, partitions := p, replicationFactor := rf, configs := cfgs }
  | _ => none

/-- Unmarshal the `topics` field: absent yields the nil slice. -/
def decodeTopics : Option Json → Option (List Topic)
  | none => some []
  | some (Json.arr xs) => xs.mapM decodeTopic
  | some _ => none

/-- `json.Unmarshal(data, &file)` of importTopics lines 101-103. -/
def decodeExportFile : Json → Option ExportFile
  | Json.obj fields => do
    let kv ← decodeStr (getField fields "kafka_version")
    let et ← decodeStr (getField fields "export_time")
    let ts ← decodeTopics (getField fields "topics")
    pure { kafkaVersion := kv, exportTime := et, topics := ts }
  | _ => none

/-! ## The importer -/

/-- Errors surfaced by the import path: the cluster's "topic already
exists" rejection, any other cluster-side rejection, and read/parse
failures of the snapshot file. -/
inductive ImpErr where
  | alreadyExists
  | clusterQuery
  | parseError
deriving DecidableEq

/-- `admin.CreateTopic` as importTopics observes it: the cluster is the
list of existing topic names; creation of an existing name fails with
AlreadyExists, `fail` is an oracle for other cluster-side failures, and
otherwise the topic is appended to the cluster. -/
def createTopic (fail : String → Bool) (cluster : List String) (name : String) :
    Except ImpErr (List String) :=
  if name ∈ cluster then Except.error ImpErr.alreadyExists
  else if fail name then Except.error ImpErr.clusterQuery
  else Except.ok (cluster ++ [name])

/-- The creation loop of importTopics, lines 106-130: for each topic in
document order call `createTopic`; on any error, skip and continue when
`ifNotExists` is set, else return the error. Yields the final cluster
state and the surfaced error, if any. -/
def importLoop (fail : String → Bool) (ifNotExists : Bool) :
    List Topic → List String → List String × Option ImpErr
  | [], cluster => (cluster, none)
  | t :: ts, cluster =>
    match createTopic fail cluster t.name with
    | Except.ok cluster' => importLoop fail ifNotExists ts cluster'
    | Except.error e =>
      if ifNotExists then importLoop fail ifNotExists ts cluster
      else (cluster, some e)

/-- importTopics end to end, lines 89-132: read the snapshot (`none`
models a missing/unreadable file), unmarshal it, then run the creation
loop; a read or parse failure surfaces before any `createTopic` call. -/
def importRun (data : Option Json) (fail : String → Bool) (ifNotExists : Bool)
    (cluster : List String) : List String × Option ImpErr :=
  match data with
  | none => (cluster, some ImpErr.parseError)
  | some j =>
    match decodeExportFile j with
    | none => (cluster, some ImpErr.parseError)
    | some f => importLoop fail ifNotExists f.topics cluster

/-! ## The command dispatch of main -/

/-- The switch of `main`, lines 136-186: with fewer than two os.Args the
usage text is printed and the process exits 1; `export` and `import`
run their handlers; any other command prints the supported-commands
line and main returns (exit status 0). The result is the printed lines
and the exit code. -/
def mainDispatch (onExport onImport : List String → List String × Nat)
    (args : List String) : List String × Nat :=
  if args.length < 2 then
    (["用法: kafka-topicctl <export|import> [参数]",
      "示例:",
      "  kafka-topicctl export --bootstrap broker:9092",
      "  kafka-topicctl import --bootstrap broker:9092 --in topics.json"], 1)
  else
    match args.get? 1 with
    | some "export" => onExport (args.drop 2)
    | some "import" => onImport (args.drop 2)
    | _ => (["支持命令: export / import"], 0)

/-! ## encoding/json marshalling over reflected Go values

exportTopics line 84 discards the error of `json.MarshalIndent`. To
settle whether that error can be non-nil, marshalling is modelled over a
fragment of Go's reflected value universe: the kinds occurring in
`ExportFile` plus an `unsupported` kind (func, chan, complex, ...) on
which Marshal errors. -/

/-- A reflected Go value as `encoding/json` walks it: strings, integers,
slices, string-keyed maps, structs (field name, omitempty flag, value)
and an unsupported kind. -/
inductive GoValue where
  | str : String → GoValue
  | int : Int → GoValue
  | slice : List GoValue → GoValue
  | strMap : List (String × GoValue) → GoValue
  | struct : List (String × Bool × GoValue) → GoValue
  | unsupported : GoValue

/-- Go's `isEmptyValue` as used by the `omitempty` option: empty string,
zero integer, empty slice or map; structs are never empty. -/
def isEmptyGo : GoValue → Bool
  | GoValue.str s => s.isEmpty
  | GoValue.int n => n == 0
  | GoValue.slice xs => xs.isEmpty
  | GoValue.strMap m => m.isEmpty
  | GoValue.struct _ => false
  | GoValue.unsupported => false

mutual

/-- `json.Marshal` on a reflected value: errors exactly on unsupported
kinds; map keys are emitted sorted ascending; struct fields with
`omitempty` are dropped when empty. -/
def marshalGo : GoValue → Except Unit Json
  | GoValue.str s => Except.ok (Json.str s)
  | GoValue.int n => Except.ok (Json.num n)
  | GoValue.slice xs => do
    let js ← marshalList xs
    pure (Json.arr js)
  | GoValue.strMap m => do
    let entries ← marshalEntries m
    pure (Json.obj (sortByKey entries))
  | GoValue.struct fields => do
    let entries ← marshalFields fields
    pure (Json.obj entries)
  | GoValue.unsupported => Except.error ()

/-- Marshal the elements of a slice. -/
def marshalList : List GoValue → Except Unit (List Json)
  | [] => Except.ok []
  | v :: vs => do
    let j ← marshalGo v
    let js ← marshalList vs
    pure (j :: js)

/-- Marshal the entries of a string-keyed map. -/
def marshalEntries : List (String × GoValue) → Except Unit (List (String × Json))
  | [] => Except.ok []
  | (k, v) :: rest => do
    let j ← marshalGo v
    let js ← marshalEntries rest
    pure ((k, j) :: js)

/-- Marshal the fields of a struct, honouring `omitempty`. -/
def marshalFields : List (String × Bool × GoValue) → Except Unit (List (String × Json))
  | [] => Except.ok []
  | (k, omitEmpty, v) :: rest =>
    if omitEmpty && isEmptyGo v then marshalFields rest
    else do
      let j ← marshalGo v
      let js ← marshalFields rest
      pure ((k, j) :: js)

end

/-- Reflection of the `Configs` field: a `map[string]string`. -/
def reflectConfigs (cfgs : List (String × String)) : GoValue :=
  GoValue.strMap (cfgs.map fun kv => (kv.1, GoValue.str kv.2))

/-- Reflection of one `Topic` with its struct tags: `configs` carries
`omitempty`. -/
def reflectTopic (t : Topic) : GoValue :=
  GoValue.struct
    [("name", false, GoValue.str t.name),
     ("partitions", false, GoValue.int t.partitions),
     ("replication_factor", false, GoValue.int t.replicationFactor),
     ("configs", true, reflectConfigs t.configs)]

/-- Reflection of the whole `ExportFile` with its struct tags. -/
def reflectExportFile (f : ExportFile) : GoValue :=
  GoValue.struct
    [("kafka_version", false, GoValue.str f.kafkaVersion),
     ("export_time", false, GoValue.str f.exportTime),
     ("topics", false, GoValue.slice (f.topics.map reflectTopic))]

/-! ## Helper lemmas: the export pipeline -/

theorem toTopic_name (name : String) (d : TopicDetail) : (toTopic name d).name = name := rfl

theorem preSort_names (topics : List (String × TopicDetail)) (excludeInternal : Bool) :
    (preSort topics excludeInternal).map Topic.name =
      (topics.filter fun p => !(excludeInternal && isInternal p.1)).map Prod.fst := by
  simp only [preSort, List.map_map]
  rfl

theorem preSort_names_nodup {topics : List (String × TopicDetail)} (excludeInternal : Bool)
    (h : (topics.map Prod.fst).Nodup) :
    ((preSort topics excludeInternal).map Topic.name).Nodup := by
  rw [preSort_names]
  exact List.Nodup.sublist ((List.filter_sublist topics).map Prod.fst) h

theorem exportResult_perm (topics : List (String × TopicDetail)) (excludeInternal : Bool) :
    List.Perm (exportResult topics excludeInternal) (preSort topics excludeInternal) :=
  List.perm_insertionSort nameLe _

theorem exportResult_sorted_le (topics : List (String × TopicDetail)) (excludeInternal : Bool) :
    List.Sorted nameLe (exportResult topics excludeInternal) :=
  List.sorted_insertionSort nameLe _

theorem exportResult_names_nodup {topics : List (String × TopicDetail)} (excludeInternal : Bool)
    (h : (topics.map Prod.fst).Nodup) :
    ((exportResult topics excludeInternal).map Topic.name).Nodup :=
  (((exportResult_perm topics excludeInternal).map Topic.name).nodup_iff).mpr
    (preSort_names_nodup excludeInternal h)

theorem toList_ne_of_ne {s t : String} (h : s ≠ t) : s.toList ≠ t.toList :=
  fun he => h (String.ext he)

theorem exportResult_sorted_lt {topics : List (String × TopicDetail)} (excludeInternal : Bool)
    (h : (topics.map Prod.fst).Nodup) :
    List.Sorted nameLt (exportResult topics excludeInternal) := by
  have hle := exportResult_sorted_le topics excludeInternal
  have hne : List.Pairwise (fun a b : Topic => a.name ≠ b.name)
      (exportResult topics excludeInternal) :=
    List.pairwise_map.mp (exportResult_names_nodup excludeInternal h)
  exact (hle.and hne).imp fun hab => lt_of_le_of_ne hab.1 (toList_ne_of_ne hab.2)

theorem preSort_perm {l₁ l₂ : List (String × TopicDetail)} (hp : List.Perm l₁ l₂)
    (excludeInternal : Bool) : List.Perm (preSort l₁ excludeInternal) (preSort l₂ excludeInternal) :=
  (hp.filter _).map _

theorem exportResult_eq_of_perm {l₁ l₂ : List (String × TopicDetail)} (hp : List.Perm l₁ l₂)
    (hn : (l₁.map Prod.fst).Nodup) (excludeInternal : Bool) :
    exportResult l₁ excludeInternal = exportResult l₂ excludeInternal := by
  have hperm : List.Perm (exportResult l₁ excludeInternal) (exportResult l₂ excludeInternal) :=
    ((exportResult_perm l₁ excludeInternal).trans (preSort_perm hp excludeInternal)).trans
      (exportResult_perm l₂ excludeInternal).symm
  have hs₁ : List.Sorted nameLt (exportResult l₁ excludeInternal) :=
    exportResult_sorted_lt excludeInternal hn
  have hs₂ : List.Sorted nameLt (exportResult l₂ excludeInternal) :=
    exportResult_sorted_lt excludeInternal (((hp.map Prod.fst).nodup_iff).mp hn)
  exact List.eq_of_perm_of_sorted hperm hs₁ hs₂

/-! ## Helper lemmas: association-list lookup as a mapping -/

theorem lookup_eq_some_of_mem {β : Type} :
    ∀ {l : List (String × β)}, (l.map Prod.fst).Nodup →
      ∀ {k : String} {v : β}, (k, v) ∈ l → l.lookup k = some v := by
  intro l
  induction l with
  | nil => intro _ k v hm; cases hm
  | cons hd tl ih =>
    intro hn k v hm
    rcases List.mem_cons.mp hm with heq | htl
    · cases heq
      simp [List.lookup]
    · have hk : k ∈ tl.map Prod.fst := List.mem_map_of_mem Prod.fst htl
      have hne : k ≠ hd.1 := by
        intro h
        subst h
        exact (List.nodup_cons.mp (by simpa [List.map] using hn)).1 hk
      have : (k == hd.1) = false := beq_false_of_ne hne
      simp [List.lookup, this]
      exact ih (List.nodup_cons.mp (by simpa [List.map] using hn)).2 htl

theorem lookup_eq_none_of_not_mem {β : Type} {l : List (String × β)} {k : String}
    (hk : k ∉ l.map Prod.fst) : l.lookup k = none := by
  rw [List.lookup_eq_none_iff]
  intro p hp
  refine bne_iff_ne.mpr fun h => hk ?_
  subst h
  exact List.mem_map_of_mem Prod.fst hp

theorem lookup_eq_of_perm {β : Type} {l l' : List (String × β)} (hp : List.Perm l l')
    (hn : (l.map Prod.fst).Nodup) (k : String) : l.lookup k = l'.lookup k := by
  by_cases hk : k ∈ l.map Prod.fst
  · rcases List.mem_map.mp hk with ⟨⟨k', v⟩, hm, hk'⟩
    cases hk'
    rw [lookup_eq_some_of_mem hn hm,
      lookup_eq_some_of_mem (((hp.map Prod.fst).nodup_iff).mp hn) (hp.mem_iff.mp hm)]
  · rw [lookup_eq_none_of_not_mem hk,
      lookup_eq_none_of_not_mem fun h => hk (((hp.map Prod.fst).mem_iff).mpr h)]

/-! ## Helper lemmas: sorting by key commutes with mapping values -/

theorem orderedInsert_keyLe_map {β γ : Type} (g : β → γ) (a : String × β) :
    ∀ l : List (String × β),
      List.orderedInsert keyLe (a.1, g a.2) (l.map fun kv => (kv.1, g kv.2)) =
        (List.orderedInsert keyLe a l).map fun kv => (kv.1, g kv.2) := by
  intro l
  induction l with
  | nil => rfl
  | cons hd tl ih =>
    by_cases h : keyLe a hd
    · have h' : keyLe (β := γ) (a.1, g a.2) (hd.1, g hd.2) := h
      simp [List.orderedInsert, h, h']
    · have h' : ¬ keyLe (β := γ) (a.1, g a.2) (hd.1, g hd.2) := h
      simp [List.orderedInsert, h, h', ih]

theorem sortByKey_map {β γ : Type} (g : β → γ) :
    ∀ l : List (String × β),
      sortByKey (l.map fun kv => (kv.1, g kv.2)) =
        (sortByKey l).map fun kv => (kv.1, g kv.2) := by
  intro l
  induction l with
  | nil => rfl
  | cons hd tl ih =>
    simp only [List.map, sortByKey, List.insertionSort] at *
    rw [ih]
    exact orderedInsert_keyLe_map g hd _

theorem sortByKey_perm {β : Type} (l : List (String × β)) : List.Perm (sortByKey l) l :=
  List.perm_insertionSort keyLe l

theorem sortByKey_keys_nodup {β : Type} {l : List (String × β)}
    (hn : (l.map Prod.fst).Nodup) : ((sortByKey l).map Prod.fst).Nodup :=
  (((sortByKey_perm l).map Prod.fst).nodup_iff).mpr hn

/-! ## Helper lemmas: the snapshot codec round-trip -/

/-- A topic as `decodeExportFile` reconstructs it from its own encoding:
same fields, configs listed in the key-sorted order the encoder emitted. -/
def canonTopic (t : Topic) : Topic :=
  { t with configs := sortByKey t.configs }

theorem mapM_decodeConfigEntry :
    ∀ l : List (String × String),
      (l.map fun kv => (kv.1, Json.str kv.2)).mapM decodeConfigEntry = some l := by
  intro l
  induction l with
  | nil => rfl
  | cons hd tl ih =>
    simp only [List.map_cons, List.mapM_cons, decodeConfigEntry, ih]
    rfl

theorem decodeConfigs_encodeConfigs (cfgs : List (String × String)) :
    decodeConfigs (some (encodeConfigs cfgs)) = some (sortByKey cfgs) := by
  show (sortByKey (cfgs.map fun kv => (kv.1, Json.str kv.2))).mapM decodeConfigEntry =
    some (sortByKey cfgs)
  rw [sortByKey_map]
  exact mapM_decodeConfigEntry (sortByKey cfgs)

theorem decodeTopic_encodeTopic (t : Topic) :
    decodeTopic (encodeTopic t) = some (canonTopic t) := by
  obtain ⟨n, p, r, cfgs⟩ := t
  cases cfgs with
  | nil => rfl
  | cons hd tl =>
    show (decodeConfigs (some (encodeConfigs (hd :: tl)))).bind
        (fun cs => some (Topic.mk n p r cs)) =
      some (canonTopic (Topic.mk n p r (hd :: tl)))
    rw [decodeConfigs_encodeConfigs]
    rfl

theorem mapM_decodeTopic (ts : List Topic) :
    (ts.map encodeTopic).mapM decodeTopic = some (ts.map canonTopic) := by
  induction ts with
  | nil => rfl
  | cons hd tl ih =>
    simp only [List.map_cons, List.mapM_cons, decodeTopic_encodeTopic, ih]
    rfl

theorem decodeExportFile_encodeExportFile (f : ExportFile) :
    decodeExportFile (encodeExportFile f) =
      some (ExportFile.mk f.kafkaVersion f.exportTime (f.topics.map canonTopic)) := by
  show ((f.topics.map encodeTopic).mapM decodeTopic).bind
      (fun ts => some (ExportFile.mk f.kafkaVersion f.exportTime ts)) =
    some (ExportFile.mk f.kafkaVersion f.exportTime (f.topics.map canonTopic))
  rw [mapM_decodeTopic]
  rfl

/-! ## Helper lemmas: marshalling of the reflected document -/

theorem marshalEntries_str (cfgs : List (String × String)) :
    marshalEntries (cfgs.map fun kv => (kv.1, GoValue.str kv.2)) =
      Except.ok (cfgs.map fun kv => (kv.1, Json.str kv.2)) := by
  induction cfgs with
  | nil => rfl
  | cons hd tl ih =>
    show (marshalEntries (tl.map fun kv => (kv.1, GoValue.str kv.2))).bind
        (fun js => Except.ok ((hd.1, Json.str hd.2) :: js)) = _
    rw [ih]
    rfl

theorem marshalGo_reflectConfigs (cfgs : List (String × String)) :
    marshalGo (reflectConfigs cfgs) = Except.ok (encodeConfigs cfgs) := by
  show (marshalEntries (cfgs.map fun kv => (kv.1, GoValue.str kv.2))).bind
      (fun entries => Except.ok (Json.obj (sortByKey entries))) = _
  rw [marshalEntries_str]
  rfl

theorem marshalFields_keep {k : String} {b : Bool} {v : GoValue}
    {rest : List (String × Bool × GoValue)} {j : Json} {entries : List (String × Json)}
    (hemp : (b && isEmptyGo v) = false) (hv : marshalGo v = Except.ok j)
    (hrest : marshalFields rest = Except.ok entries) :
    marshalFields ((k, b, v) :: rest) = Except.ok ((k, j) :: entries) := by
  have hstep : marshalFields ((k, b, v) :: rest) =
      if b && isEmptyGo v then marshalFields rest
      else (marshalGo v).bind fun j' =>
        (marshalFields rest).bind fun js => Except.ok ((k, j') :: js) := rfl
  rw [hstep, hemp, if_neg (by simp), hv, hrest]
  rfl

theorem marshalGo_reflectTopic (t : Topic) :
    marshalGo (reflectTopic t) = Except.ok (encodeTopic t) := by
  obtain ⟨n, p, r, cfgs⟩ := t
  cases cfgs with
  | nil => rfl
  | cons hd tl =>
    have h4 : marshalFields [("configs", true, reflectConfigs (hd :: tl))] =
        Except.ok [("configs", encodeConfigs (hd :: tl))] :=
      marshalFields_keep rfl (marshalGo_reflectConfigs (hd :: tl)) rfl
    have h3 : marshalFields
        [("replication_factor", false, GoValue.int r),
         ("configs", true, reflectConfigs (hd :: tl))] =
        Except.ok
          [("replication_factor", Json.num r), ("configs", encodeConfigs (hd :: tl))] :=
      marshalFields_keep rfl rfl h4
    have h2 : marshalFields
        [("partitions", false, GoValue.int p),
         ("replication_factor", false, GoValue.int r),
         ("configs", true, reflectConfigs (hd :: tl))] =
        Except.ok
          [("partitions", Json.num p), ("replication_factor", Json.num r),
           ("configs", encodeConfigs (hd :: tl))] :=
      marshalFields_keep rfl rfl h3
    have h1 : marshalFields
        [("name", false, GoValue.str n), ("partitions", false, GoValue.int p),
         ("replication_factor", false, GoValue.int r),
         ("configs", true, reflectConfigs (hd :: tl))] =
        Except.ok
          [("name", Json.str n), ("partitions", Json.num p),
           ("replication_factor", Json.num r), ("configs", encodeConfigs (hd :: tl))] :=
      marshalFields_keep rfl rfl h2
    show (marshalFields
        [("name", false, GoValue.str n), ("partitions", false, GoValue.int p),
         ("replication_factor", false, GoValue.int r),
         ("configs", true, reflectConfigs (hd :: tl))]).bind
      (fun entries => Except.ok (Json.obj entries)) =
      Except.ok (encodeTopic (Topic.mk n p r (hd :: tl)))
    rw [h1]
    rfl

theorem marshalList_reflectTopic (ts : List Topic) :
    marshalList (ts.map reflectTopic) = Except.ok (ts.map encodeTopic) := by
  induction ts with
  | nil => rfl
  | cons hd tl ih =>
    show (marshalGo (reflectTopic hd)).bind
        (fun j => (marshalList (tl.map reflectTopic)).bind
          (fun js => Except.ok (j :: js))) = _
    rw [marshalGo_reflectTopic, ih]
    rfl

/-! ## Helper lemmas: the import loop -/

theorem importLoop_append (fail : String → Bool) (b : Bool) (pre post : List Topic)
    (c : List String) :
    importLoop fail b (pre ++ post) c =
      match importLoop fail b pre c with
      | (c', none) => importLoop fail b post c'
      | (c', some e) => (c', some e) := by
  induction pre generalizing c with
  | nil => simp [importLoop]
  | cons t ts ih =>
    simp only [List.cons_append, importLoop]
    cases hct : createTopic fail c t.name with
    | ok c₂ => simp [hct, ih]
    | error e => cases b <;> simp [hct, ih]

/-! ## Sample values used by the claim witnesses -/

/-- A sample listTopics descriptor: one present config value and one
nil (cluster-default) one. -/
def sampleDetail : TopicDetail :=
  { numPartitions := 3
    replicationFactor := 2
    configEntries := [("retention.ms", some "1000"), ("cleanup.policy", none)] }

/-- Sample topic `a`. -/
def topicA : Topic :=
  { name := "a", partitions := 1, replicationFactor := 1, configs := [] }

/-- Sample topic `b`. -/
def topicB : Topic :=
  { name := "b", partitions := 1, replicationFactor := 1, configs := [] }

/-- Sample topic `z`. -/
def topicZ : Topic :=
  { name := "z", partitions := 1, replicationFactor := 1, configs := [] }

/-- Sample topic `orders`, as in the spec's fail-fast scenario. -/
def topicOrders : Topic :=
  { name := "orders", partitions := 3, replicationFactor := 2, configs := [] }

/-- A sample cluster listing with one internal and one regular topic. -/
def sampleCluster : List (String × TopicDetail) :=
  [("__consumer_offsets", sampleDetail), ("orders", sampleDetail)]

/-- A sample snapshot document. -/
def sampleFile : ExportFile :=
  { kafkaVersion := "2.4.0"
    exportTime := "2024-01-01T00:00:00Z"
    topics :=
      [{ name := "orders", partitions := 3, replicationFactor := 2,
         configs := [("retention.ms", "1000"), ("cleanup.policy", "compact")] }] }

/-! ## Claim C1 -/

/-- C1 (counterexample): the claim says that with skipIfExists=true a
createTopic failure other than AlreadyExists aborts the import,
surfacing the error. At the concrete input below, topic `a` fails with
a ClusterQuery (non-AlreadyExists) error, yet the run does not abort:
it continues, creates `b`, and reports no error. -/
theorem C1_counterexample :
    createTopic (fun s => s == "a") [] "a" = Except.error ImpErr.clusterQuery ∧
    importLoop (fun s => s == "a") true [topicA, topicB] [] = (["b"], none) :=
  ⟨rfl, rfl⟩

/-- C1 (amended): during import with skipIfExists=true, a createTopic
failure of ANY kind (the code never inspects the error) is skipped,
continuing to the next topic; with skipIfExists=false any failure
aborts immediately, surfacing that error, with no rollback of topics
already created in the run. -/
theorem C1_amended (fail : String → Bool) (t : Topic) (ts : List Topic)
    (c : List String) (e : ImpErr)
    (h : createTopic fail c t.name = Except.error e) :
    importLoop fail true (t :: ts) c = importLoop fail true ts c ∧
    importLoop fail false (t :: ts) c = (c, some e) := by
  refine ⟨?_, ?_⟩ <;> simp [importLoop, h]

/-- C1 (witness): the amended claim at a concrete input. -/
theorem C1_witness :
    createTopic (fun s => s == "a") [] topicA.name = Except.error ImpErr.clusterQuery ∧
    importLoop (fun s => s == "a") true [topicA, topicB] [] =
      importLoop (fun s => s == "a") true [topicB] [] ∧
    importLoop (fun s => s == "a") false [topicA, topicB] [] =
      ([], some ImpErr.clusterQuery) :=
  ⟨rfl,
   (C1_amended (fun s => s == "a") topicA [topicB] [] ImpErr.clusterQuery rfl).1,
   (C1_amended (fun s => s == "a") topicA [topicB] [] ImpErr.clusterQuery rfl).2⟩

/-! ## Claim C2 -/

/-- C2 (counterexample): the claim says an unrecognized command exits
with a non-zero status. Running the dispatch with the unrecognized
command `frobnicate`, the exit status is 0, so the non-zero assertion
fails (main's default switch branch has no os.Exit call). -/
theorem C2_counterexample :
    ¬ ((mainDispatch (fun _ => ([], 0)) (fun _ => ([], 0))
        ["kafka-topicctl", "frobnicate"]).2 ≠ 0) :=
  fun h => h rfl

/-- C2 (amended): when the first command-line argument is an
unrecognized command (neither export nor import), the program prints
the supported-commands help line and terminates with exit status zero. -/
theorem C2_amended (onExport onImport : List String → List String × Nat)
    (args : List String) (h1 : ¬ args.length < 2)
    (h2 : args.get? 1 ≠ some "export") (h3 : args.get? 1 ≠ some "import") :
    mainDispatch onExport onImport args = (["支持命令: export / import"], 0) := by
  unfold mainDispatch
  rw [if_neg h1]
  split
  · rename_i heq
    exact absurd heq h2
  · rename_i heq
    exact absurd heq h3
  · rfl

/-- C2 (witness): the amended claim at a concrete input. -/
theorem C2_witness :
    ¬ (["kafka-topicctl", "frobnicate"] : List String).length < 2 ∧
    (["kafka-topicctl", "frobnicate"] : List String).get? 1 ≠ some "export" ∧
    (["kafka-topicctl", "frobnicate"] : List String).get? 1 ≠ some "import" ∧
    mainDispatch (fun _ => ([], 0)) (fun _ => ([], 0)) ["kafka-topicctl", "frobnicate"] =
      (["支持命令: export / import"], 0) :=
  ⟨by decide, by decide, by decide,
   C2_amended (fun _ => ([], 0)) (fun _ => ([], 0)) ["kafka-topicctl", "frobnicate"]
     (by decide) (by decide) (by decide)⟩

/-! ## Claim C6 -/

/-- C6: during import with skipIfExists=false, if createTopic fails
with AlreadyExists for some topic, the import aborts immediately
surfacing that error: the result is the cluster state reached after
the preceding topics, independent of the topics listed afterwards
(none of them attempted or created), and topics created earlier in the
run remain created. -/
theorem C6_failfast_on_conflict (fail : String → Bool) (c c' : List String)
    (pre post : List Topic) (t : Topic)
    (h1 : importLoop fail false pre c = (c', none))
    (h2 : createTopic fail c' t.name = Except.error ImpErr.alreadyExists) :
    importLoop fail false (pre ++ t :: post) c = (c', some ImpErr.alreadyExists) := by
  rw [importLoop_append, h1]
  show importLoop fail false (t :: post) c' = _
  simp [importLoop, h2]

/-- C6 (witness): importing `a`, `orders`, `z` into a cluster already
containing `orders`, with skipIfExists=false: `a` gets created,
`orders` aborts the run, `z` stays uncreated. -/
theorem C6_witness :
    importLoop (fun _ => false) false [topicA] ["orders"] = (["orders", "a"], none) ∧
    createTopic (fun _ => false) ["orders", "a"] topicOrders.name =
      Except.error ImpErr.alreadyExists ∧
    importLoop (fun _ => false) false ([topicA] ++ topicOrders :: [topicZ]) ["orders"] =
      (["orders", "a"], some ImpErr.alreadyExists) :=
  ⟨rfl, rfl,
   C6_failfast_on_conflict (fun _ => false) ["orders"] ["orders", "a"]
     [topicA] [topicZ] topicOrders rfl rfl⟩

/-! ## Claim C9 -/

/-- C9: during import, if the snapshot file is missing, unreadable or
fails to deserialize, the run fails with a parse error and the cluster
state is returned unchanged: no createTopic call happens. -/
theorem C9_parse_failure (data : Option Json) (fail : String → Bool)
    (ifNotExists : Bool) (cluster : List String)
    (h : data.bind decodeExportFile = none) :
    importRun data fail ifNotExists cluster = (cluster, some ImpErr.parseError) := by
  cases data with
  | none => rfl
  | some j =>
    have hj : decodeExportFile j = none := h
    simp [importRun, hj]

/-- C9 (witness): a file whose contents are the JSON string "oops"
fails to parse; the cluster keeps its single topic and the run reports
the parse error. -/
theorem C9_witness :
    (some (Json.str "oops")).bind decodeExportFile = none ∧
    importRun (some (Json.str "oops")) (fun _ => false) true ["existing"] =
      (["existing"], some ImpErr.parseError) :=
  ⟨rfl, C9_parse_failure (some (Json.str "oops")) (fun _ => false) true ["existing"] rfl⟩

/-! ## Claim C3 -/

/-- C3: for every export, the topics sequence written to the snapshot
document is strictly sorted by topic name ascending in
byte/lexicographic order, assuming topic names from the cluster are
unique. -/
theorem C3_export_sorted (exportTime : String) (topics : List (String × TopicDetail))
    (excludeInternal : Bool) (h : (topics.map Prod.fst).Nodup) :
    List.Sorted nameLt (buildExportFile exportTime topics excludeInternal).topics :=
  exportResult_sorted_lt excludeInternal h

/-- C3 (witness): exporting topics named zeta, alpha, mid yields a
strictly name-ascending topics sequence. -/
theorem C3_witness :
    (([("zeta", sampleDetail), ("alpha", sampleDetail), ("mid", sampleDetail)].map
      Prod.fst).Nodup) ∧
    List.Sorted nameLt (buildExportFile "2024-01-01T00:00:00Z"
      [("zeta", sampleDetail), ("alpha", sampleDetail), ("mid", sampleDetail)] false).topics :=
  ⟨by decide,
   C3_export_sorted "2024-01-01T00:00:00Z"
     [("zeta", sampleDetail), ("alpha", sampleDetail), ("mid", sampleDetail)] false
     (by decide)⟩

/-! ## Claim C4 -/

/-- C4: during export, every per-topic config entry whose
cluster-reported value is absent (nil pointer) appears in the exported
configs mapping with an empty-string value rather than being omitted;
entries with values are copied verbatim; the mapping's keys are exactly
the cluster-reported keys. -/
theorem C4_config_normalization (name : String) (d : TopicDetail) (k : String) :
    ((k, (none : Option String)) ∈ d.configEntries →
      (k, "") ∈ (toTopic name d).configs) ∧
    (∀ v : String, (k, some v) ∈ d.configEntries → (k, v) ∈ (toTopic name d).configs) ∧
    (toTopic name d).configs.map Prod.fst = d.configEntries.map Prod.fst := by
  refine ⟨?_, ?_, ?_⟩
  · intro hm
    have := List.mem_map_of_mem
      (fun kv : String × Option String => (kv.1, kv.2.getD "")) hm
    simpa [toTopic, goConfigs] using this
  · intro v hm
    have := List.mem_map_of_mem
      (fun kv : String × Option String => (kv.1, kv.2.getD "")) hm
    simpa [toTopic, goConfigs] using this
  · simp only [toTopic, goConfigs, List.map_map]
    rfl

/-- C4 (witness): the nil-valued entry cleanup.policy is exported as
the empty string; the present entry retention.ms is copied verbatim. -/
theorem C4_witness :
    (("cleanup.policy", (none : Option String)) ∈ sampleDetail.configEntries ∧
      ("cleanup.policy", "") ∈ (toTopic "orders" sampleDetail).configs) ∧
    (("retention.ms", some "1000") ∈ sampleDetail.configEntries ∧
      ("retention.ms", "1000") ∈ (toTopic "orders" sampleDetail).configs) :=
  ⟨⟨by decide,
    (C4_config_normalization "orders" sampleDetail "cleanup.policy").1 (by decide)⟩,
   ⟨by decide,
    (C4_config_normalization "orders" sampleDetail "retention.ms").2.1 "1000" (by decide)⟩⟩

/-! ## Claim C5 -/

/-- C5: during export, when excludeInternal is true a topic is dropped
exactly when its name begins with the two-character internal prefix
(every enumerated non-internal topic is kept and every kept topic is
non-internal, and `__consumer_offsets` is internal); when
excludeInternal is false every enumerated topic is included. -/
theorem C5_internal_filtering (topics : List (String × TopicDetail)) :
    (∀ p ∈ topics, toTopic p.1 p.2 ∈ exportResult topics false) ∧
    (∀ p ∈ topics, isInternal p.1 = false → toTopic p.1 p.2 ∈ exportResult topics true) ∧
    (∀ t ∈ exportResult topics true, isInternal t.name = false) ∧
    isInternal "__consumer_offsets" = true := by
  refine ⟨?_, ?_, ?_, by decide⟩
  · intro p hp
    have : toTopic p.1 p.2 ∈ preSort topics false := by
      refine List.mem_map_of_mem _ (List.mem_filter.mpr ⟨hp, by simp⟩)
    simpa [exportResult] using this
  · intro p hp hint
    have : toTopic p.1 p.2 ∈ preSort topics true := by
      refine List.mem_map_of_mem _ (List.mem_filter.mpr ⟨hp, by simp [hint]⟩)
    simpa [exportResult] using this
  · intro t ht
    have ht' : t ∈ preSort topics true := by simpa [exportResult] using ht
    obtain ⟨p, hpfil, rfl⟩ := List.mem_map.mp ht'
    have hcond := (List.mem_filter.mp hpfil).2
    simpa [toTopic_name] using hcond

/-- C5 (witness): exporting a cluster holding `__consumer_offsets` and
`orders`: with excludeInternal=false both are included, with
excludeInternal=true `orders` is kept and everything kept is
non-internal. -/
theorem C5_witness :
    (toTopic "orders" sampleDetail ∈ exportResult sampleCluster false ∧
      toTopic "__consumer_offsets" sampleDetail ∈ exportResult sampleCluster false) ∧
    (isInternal "orders" = false ∧
      toTopic "orders" sampleDetail ∈ exportResult sampleCluster true) ∧
    isInternal "__consumer_offsets" = true :=
  ⟨⟨(C5_internal_filtering sampleCluster).1 ("orders", sampleDetail) (by decide),
    (C5_internal_filtering sampleCluster).1 ("__consumer_offsets", sampleDetail) (by decide)⟩,
   ⟨by decide,
    (C5_internal_filtering sampleCluster).2.1 ("orders", sampleDetail) (by decide) (by decide)⟩,
   (C5_internal_filtering sampleCluster).2.2.2⟩

/-! ## Claim C7 -/

/-- C7: the snapshot codec round-trips: deserializing the serialized
form of any snapshot document (whose config mappings have unique keys,
as Go maps guarantee) recovers a document with identical kafka_version,
export_time and topics sequence: same names, partition counts,
replication factors, and config mappings (an empty and an absent
configs mapping being observationally equal). -/
theorem C7_roundTrip (f : ExportFile)
    (h : ∀ t ∈ f.topics, (t.configs.map Prod.fst).Nodup) :
    ∃ f' : ExportFile, decodeExportFile (encodeExportFile f) = some f' ∧
      f'.kafkaVersion = f.kafkaVersion ∧ f'.exportTime = f.exportTime ∧
      List.Forall₂ (fun t' t =>
          t'.name = t.name ∧ t'.partitions = t.partitions ∧
          t'.replicationFactor = t.replicationFactor ∧
          ∀ k : String, t'.configs.lookup k = t.configs.lookup k)
        f'.topics f.topics := by
  refine ⟨_, decodeExportFile_encodeExportFile f, rfl, rfl, ?_⟩
  rw [List.forall₂_map_left_iff]
  refine List.forall₂_same.mpr ?_
  intro t ht
  refine ⟨rfl, rfl, rfl, fun k => ?_⟩
  exact lookup_eq_of_perm (sortByKey_perm t.configs) (sortByKey_keys_nodup (h t ht)) k

/-- C7 (witness): the round-trip at a concrete document. -/
theorem C7_witness :
    (∀ t ∈ sampleFile.topics, (t.configs.map Prod.fst).Nodup) ∧
    (∃ f' : ExportFile, decodeExportFile (encodeExportFile sampleFile) = some f' ∧
      f'.kafkaVersion = sampleFile.kafkaVersion ∧ f'.exportTime = sampleFile.exportTime ∧
      List.Forall₂ (fun t' t =>
          t'.name = t.name ∧ t'.partitions = t.partitions ∧
          t'.replicationFactor = t.replicationFactor ∧
          ∀ k : String, t'.configs.lookup k = t.configs.lookup k)
        f'.topics sampleFile.topics) :=
  ⟨by decide, C7_roundTrip sampleFile (by decide)⟩

/-! ## Claim C8 -/

/-- C8: export is deterministic with respect to cluster state: two
export runs over the same name-to-descriptor mapping, regardless of
enumeration order (and regardless of timestamp), serialize the same
topics sequence. -/
theorem C8_deterministic (time₁ time₂ : String) (l₁ l₂ : List (String × TopicDetail))
    (excludeInternal : Bool) (hp : List.Perm l₁ l₂) (hn : (l₁.map Prod.fst).Nodup) :
    (buildExportFile time₁ l₁ excludeInternal).topics.map encodeTopic =
      (buildExportFile time₂ l₂ excludeInternal).topics.map encodeTopic := by
  show (exportResult l₁ excludeInternal).map encodeTopic =
    (exportResult l₂ excludeInternal).map encodeTopic
  rw [exportResult_eq_of_perm hp hn]

/-- C8 (witness): two enumeration orders of the same two-topic cluster
state serialize identical topics sequences. -/
theorem C8_witness :
    List.Perm [("b", sampleDetail), ("a", sampleDetail)]
      [("a", sampleDetail), ("b", sampleDetail)] ∧
    (([("b", sampleDetail), ("a", sampleDetail)].map Prod.fst).Nodup) ∧
    (buildExportFile "t1" [("b", sampleDetail), ("a", sampleDetail)] true).topics.map
        encodeTopic =
      (buildExportFile "t2" [("a", sampleDetail), ("b", sampleDetail)] true).topics.map
        encodeTopic :=
  ⟨List.Perm.swap ("a", sampleDetail) ("b", sampleDetail) [],
   by decide,
   C8_deterministic "t1" "t2" [("b", sampleDetail), ("a", sampleDetail)]
     [("a", sampleDetail), ("b", sampleDetail)] true
     (List.Perm.swap ("a", sampleDetail) ("b", sampleDetail) []) (by decide)⟩

/-! ## Claim C10 -/

/-- C10: for every snapshot document the exporter can construct, JSON
serialization succeeds: marshalling the reflected document never hits
an unsupported kind, so the error `json.MarshalIndent` returns (and
exportTopics discards) is always nil and the marshalled value is the
document's encoding. -/
theorem C10_marshal_never_fails (f : ExportFile) :
    marshalGo (reflectExportFile f) = Except.ok (encodeExportFile f) := by
  have hslice : marshalGo (GoValue.slice (f.topics.map reflectTopic)) =
      Except.ok (Json.arr (f.topics.map encodeTopic)) := by
    show (marshalList (f.topics.map reflectTopic)).bind
        (fun js => Except.ok (Json.arr js)) = _
    rw [marshalList_reflectTopic]
    rfl
  have h3 : marshalFields [("topics", false, GoValue.slice (f.topics.map reflectTopic))] =
      Except.ok [("topics", Json.arr (f.topics.map encodeTopic))] :=
    marshalFields_keep rfl hslice rfl
  have h2 : marshalFields
      [("export_time", false, GoValue.str f.exportTime),
       ("topics", false, GoValue.slice (f.topics.map reflectTopic))] =
      Except.ok
        [("export_time", Json.str f.exportTime),
         ("topics", Json.arr (f.topics.map encodeTopic))] :=
    marshalFields_keep rfl rfl h3
  have h1 : marshalFields
      [("kafka_version", false, GoValue.str f.kafkaVersion),
       ("export_time", false, GoValue.str f.exportTime),
       ("topics", false, GoValue.slice (f.topics.map reflectTopic))] =
      Except.ok
        [("kafka_version", Json.str f.kafkaVersion),
         ("export_time", Json.str f.exportTime),
         ("topics", Json.arr (f.topics.map encodeTopic))] :=
    marshalFields_keep rfl rfl h2
  show (marshalFields
      [("kafka_version", false, GoValue.str f.kafkaVersion),
       ("export_time", false, GoValue.str f.exportTime),
       ("topics", false, GoValue.slice (f.topics.map reflectTopic))]).bind
    (fun entries => Except.ok (Json.obj entries)) = Except.ok (encodeExportFile f)
  rw [h1]
  rfl

end KafkaClient
